import Mathlib

/-!
Shallow embedding of the credential-and-signature caching core of the
wechat-jssdk repository (lib/JSSDK.ts, the legacy lib/JSSDK js module, and
lib/OAuth.ts), together with theorems checking the natural-language
specification against it.

Record fields that are optional in the JavaScript objects are embedded as
`Option`; JavaScript truthiness tests (`!x`) are made explicit via the
`truthy*` helpers.  Wall-clock reads (`Date.now()`, `new Date()`) and random
nonce generation are passed in as explicit parameters, and the SHA-1 digest
function is an explicit function parameter: every claim below is about the
exact string fed to the digest, never about the digest's internals.
-/

namespace WechatJSSDK

/-! ## JavaScript primitive helpers -/

/-- Truthiness of an optional number field: `undefined` and `0` are falsy. -/
def truthyInt : Option Int → Bool
  | none => false
  | some v => v != 0

/-- Truthiness of a string: the empty string is falsy. -/
def truthyStr (s : String) : Bool := s != ""

/-- Truthiness of an optional string field: `undefined` and `''` are falsy. -/
def truthyOptStr : Option String → Bool
  | none => false
  | some s => truthyStr s

/-- Character comparison by code point, as JavaScript compares strings. -/
def charLt (a b : Char) : Bool := a.toNat < b.toNat

/-- Lexicographic comparison of character lists (JS default string order). -/
def charListLe : List Char → List Char → Bool
  | [], _ => true
  | _ :: _, [] => false
  | a :: as, b :: bs =>
    if charLt a b then true
    else if charLt b a then false
    else charListLe as bs

/-- String comparison used by `Array.prototype.sort` on string keys. -/
def strLe (a b : String) : Bool := charListLe a.data b.data

/-- Insert into a list sorted by `le` (helper for `insertionSort`). -/
def insertSorted (le : α → α → Bool) (a : α) : List α → List α
  | [] => [a]
  | b :: bs => if le a b then a :: b :: bs else b :: insertSorted le a bs

/-- Sorting as performed by `Array.prototype.sort` with the default
string comparator (stable; the embedding uses insertion sort). -/
def insertionSort (le : α → α → Bool) : List α → List α
  | [] => []
  | a :: as => insertSorted le a (insertionSort le as)

/-- ASCII lower-casing of one character (`String.prototype.toLowerCase`
on the key names appearing here, which are all ASCII). -/
def lowerChar (c : Char) : Char :=
  if 65 ≤ c.toNat && c.toNat ≤ 90 then Char.ofNat (c.toNat + 32) else c

/-- ASCII lower-casing of a string. -/
def lowerStr (s : String) : String := ⟨s.data.map lowerChar⟩

/-! ## Signature serialization (lib/utils `paramsToString`, `genSHA1`)

`utils.paramsToString` and `utils.genSHA1` live in lib/utils, which is not
part of the sources at hand; `paramsToString` is therefore modelled from the
spec and `genSHA1` is kept as an explicit function parameter `sha1`. -/

/-- Modelled from the spec: lib/utils `paramsToString` is missing from the
sources; the spec describes the serialization as
`key1=value1&key2=value2...` with keys sorted lexicographically and no
URL-encoding of values, and its fixture (`noncestr=n456` for the field
`nonceStr`) shows that key names are lower-cased. -/
def paramsToString (params : List (String × String)) : String :=
  let sorted := insertionSort (fun a b => strLe a.1 b.1) params
  String.intercalate "&" (sorted.map (fun p => lowerStr p.1 ++ "=" ++ p.2))

/-! ## URL normalization (`JSSDK.normalizeUrl`)

The source parses the url with node's legacy `url.parse`, whose `hash`
property is the suffix of the url starting at the first `#` (or null when
there is no `#`), then computes `url.indexOf(hash || '')` and truncates when
that index is positive.  The embedding mirrors that structure on `List Char`. -/

/-- Index of the first `#` in a character list (node `url.parse().hash`
start position), with an accumulator. -/
def findHashAux : List Char → Nat → Option Nat
  | [], _ => none
  | c :: cs, i => if c == '#' then some i else findHashAux cs (i + 1)

/-- Does `pat` occur as a prefix of `l`? (helper for `indexOf`). -/
def prefixOfB : List Char → List Char → Bool
  | [], _ => true
  | _ :: _, [] => false
  | a :: as, b :: bs => a == b && prefixOfB as bs

/-- First index at or after `i` where `pat` occurs in the list
(`String.prototype.indexOf`, returning `none` instead of `-1`). -/
def idxOfSubAux (pat : List Char) : List Char → Nat → Option Nat
  | [], i => if prefixOfB pat [] then some i else none
  | c :: cs, i =>
    if prefixOfB pat (c :: cs) then some i else idxOfSubAux pat cs (i + 1)

/-- Embedding of `JSSDK.normalizeUrl` on the underlying character list: compute the
parsed hash (suffix from the first `#`, or the empty pattern when absent),
find `url.indexOf(hash || '')`, and truncate only when that index is
strictly positive. -/
def normalizeUrlL (u : List Char) : List Char :=
  let hash : List Char :=
    match findHashAux u 0 with
    | none => []
    | some i => u.drop i
  let hashIndex : Int :=
    match idxOfSubAux hash u 0 with
    | none => -1
    | some i => (i : Int)
  if hashIndex > 0 then u.take hashIndex.toNat else u

/-- Embedding of `JSSDK.normalizeUrl`: remove the hash fragment from the url. -/
def normalizeUrl (url : String) : String := ⟨normalizeUrlL url.data⟩

/-! ## `generateSignature` (lib/JSSDK.ts) and `genSignature` (legacy module)

The nonce and the timestamp are produced by `createNonceStr()` /
`utils.timestamp()` inside the source functions; the embedding receives them
as parameters `nonceStr` and `timestamp` (they are the only nondeterministic
inputs).  The object literal built by the TypeScript `generateSignature`
contains the placeholder fields `signature: ''` and `accessToken: ''`
*before* `paramsToString` is applied; the legacy `genSignature` builds only
the four fields `jsapi_ticket`, `nonceStr`, `timestamp`, `url`. -/

/-- A `StoreUrlSignatureItem` with every field optional, mirroring the
TypeScript interface (absent field = `none`). -/
structure UrlSigItem where
  appId : Option String := none
  timestamp : Option String := none
  nonceStr : Option String := none
  signature : Option String := none
  url : Option String := none
  jsapi_ticket : Option String := none
  accessToken : Option String := none
  signatureName : Option String := none
  createDate : Option Int := none
  modifyDate : Option Int := none
  deriving Repr, DecidableEq

/-- The key/value pairs of the object literal that `generateSignature`
(lib/JSSDK.ts) passes to `utils.paramsToString`, in insertion order:
note the `signature` and `accessToken` placeholders holding `''`. -/
def generateSignatureParams (ticket nonceStr timestamp url : String) :
    List (String × String) :=
  [("jsapi_ticket", ticket),
   ("nonceStr", nonceStr),
   ("timestamp", timestamp),
   ("url", normalizeUrl url),
   ("signature", ""),
   ("accessToken", "")]

/-- The canonical string `originalStr` that `generateSignature`
(lib/JSSDK.ts) feeds to `utils.genSHA1`. -/
def generateSignatureStr (ticket nonceStr timestamp url : String) : String :=
  paramsToString (generateSignatureParams ticket nonceStr timestamp url)

/-- Embedding of `JSSDK.generateSignature` (lib/JSSDK.ts): build the record, hash the
serialized `originalStr`, then fill in `signature` and `accessToken`. -/
def generateSignature (sha1 : String → String)
    (url accessToken ticket nonceStr timestamp : String) : UrlSigItem :=
  { jsapi_ticket := some ticket,
    nonceStr := some nonceStr,
    timestamp := some timestamp,
    url := some (normalizeUrl url),
    signature := some (sha1 (generateSignatureStr ticket nonceStr timestamp url)),
    accessToken := some accessToken }

/-- The key/value pairs of the object literal that the legacy
`genSignature` passes to `util.paramsToString`: exactly the four-tuple. -/
def genSignatureParams (ticket nonceStr timestamp url : String) :
    List (String × String) :=
  [("jsapi_ticket", ticket),
   ("nonceStr", nonceStr),
   ("timestamp", timestamp),
   ("url", normalizeUrl url)]

/-- The canonical string that the legacy `genSignature` feeds to
`util.genSHA1`. -/
def genSignatureStr (ticket nonceStr timestamp url : String) : String :=
  paramsToString (genSignatureParams ticket nonceStr timestamp url)

/-- Legacy `JSSDK.genSignature`: four-field record, hash, then attach
`signature` and `accessToken`. -/
def genSignature (sha1 : String → String)
    (ticket url accessToken nonceStr timestamp : String) : UrlSigItem :=
  { jsapi_ticket := some ticket,
    nonceStr := some nonceStr,
    timestamp := some timestamp,
    url := some (normalizeUrl url),
    signature := some (sha1 (genSignatureStr ticket nonceStr timestamp url)),
    accessToken := some accessToken }

/-! ## Global token manager (legacy lib JSSDK module)

`REFRESH_INTERVAL`, `isTokenExpired`, `getNewTokenAndTicket` and
`prepareNewSignature` are embedded from the legacy JSSDK module, whose code
is explicit in the sources.  The store's `updateGlobalTokenInfo` (the Store
classes are not among the sources) is modelled from the spec as a merge of
the partial setter into the current record. -/

/-- The constant `REFRESH_INTERVAL`: 1h 59m in milliseconds (the token is only valid
within 2 hours upstream). -/
def REFRESH_INTERVAL : Int := 1000 * 119 * 60

/-- Embedding of `JSSDK.isTokenExpired`: `Date.now() - new Date(modifyDate).getTime() >
REFRESH_INTERVAL`, with the current clock passed explicitly. -/
def isTokenExpired (now modifyDate : Int) : Bool :=
  now - modifyDate > REFRESH_INTERVAL

/-- The global token record kept by the store
(`{accessToken, jsapi_ticket, modifyDate}`). -/
structure GlobalTokenItem where
  accessToken : String := ""
  jsapi_ticket : String := ""
  modifyDate : Int := 0
  deriving Repr, DecidableEq

/-- The partial update built by `updateAccessTokenOrTicketGlobally`
(fields guarded by truthiness of the incoming token/ticket). -/
structure GlobalTokenSetter where
  accessToken : Option String := none
  jsapi_ticket : Option String := none
  modifyDate : Int := 0
  deriving Repr, DecidableEq

/-- Embedding of `JSSDK.updateAccessTokenOrTicketGlobally`: builds
`{modifyDate: new Date()}` and adds `accessToken`/`jsapi_ticket` only when
the passed strings are truthy. -/
def updateAccessTokenOrTicketGlobally (token ticket : String) (now : Int) :
    GlobalTokenSetter :=
  { modifyDate := now,
    accessToken := if truthyStr token then some token else none,
    jsapi_ticket := if truthyStr ticket then some ticket else none }

/-- Modelled from the spec: the Store classes are not among the sources;
`updateGlobalToken(partial fields)` "merges and persists", so fields present
in the setter override the prior record and absent fields are kept. -/
def applyGlobalTokenSetter (prior : Option GlobalTokenItem)
    (s : GlobalTokenSetter) : GlobalTokenItem :=
  let base : GlobalTokenItem := prior.getD {}
  { accessToken := s.accessToken.getD base.accessToken,
    jsapi_ticket := s.jsapi_ticket.getD base.jsapi_ticket,
    modifyDate := s.modifyDate }

/-- The upstream HTTP calls a token refresh can make, in order. -/
inductive UpstreamCall where
  | fetchAccessToken
  | fetchTicket
  deriving Repr, DecidableEq

/-- Outcome of `getNewTokenAndTicket`/`prepareNewSignature`: either the
local rate-limit rejection (no network) or a resolved global token record. -/
inductive RefreshOutcome where
  | rateLimited (message : String)
  | resolved (g : GlobalTokenItem)
  deriving Repr, DecidableEq

/-- Environment of one refresh attempt: the values the two upstream
endpoints would answer with, and the current clock. -/
structure TokenEnv where
  newAccessToken : String := ""
  newTicket : String := ""
  now : Int := 0
  deriving Repr, DecidableEq

/-- Embedding of `JSSDK.getNewTokenAndTicket(force)`: a manual (non-forced) call first
increments the per-process counter and, past 5 within the window, rejects
locally without any network call; otherwise it fetches the access token,
then the ticket, and persists both via `updateAccessTokenOrTicketGlobally`.
Returns the new counter, the outcome, and the upstream calls performed. -/
def getNewTokenAndTicket (force : Bool) (refreshedTimes : Nat)
    (prior : Option GlobalTokenItem) (env : TokenEnv) :
    Nat × RefreshOutcome × List UpstreamCall :=
  let counter := if force then refreshedTimes else refreshedTimes + 1
  if !force && counter > 5 then
    (counter, .rateLimited "maximum manual refresh threshold reached!", [])
  else
    (counter,
     .resolved (applyGlobalTokenSetter prior
       (updateAccessTokenOrTicketGlobally env.newAccessToken env.newTicket env.now)),
     [.fetchAccessToken, .fetchTicket])

/-- The legacy constructor's counter-reset timer: `setInterval(() =>
this.refreshedTimes = 0, 1000 * 7200)`. -/
def counterResetIntervalMs : Int := 1000 * 7200

/-- The action the counter-reset timer performs on the counter. -/
def resetRefreshedTimes (_refreshedTimes : Nat) : Nat := 0

/-- Embedding of `JSSDK.prepareNewSignature`: read the cached global token; when it is
absent, lacks a truthy `accessToken`, or is expired, delegate to
`getNewTokenAndTicket(true)` (forced, so never rate-limited); otherwise
resolve with the cached record and perform no upstream call. -/
def prepareNewSignature (cached : Option GlobalTokenItem)
    (refreshedTimes : Nat) (env : TokenEnv) :
    Nat × RefreshOutcome × List UpstreamCall :=
  let invalid :=
    match cached with
    | none => true
    | some g => !truthyStr g.accessToken || isTokenExpired env.now g.modifyDate
  if invalid then getNewTokenAndTicket true refreshedTimes cached env
  else (refreshedTimes, .resolved (cached.getD {}), [])

/-- Outcomes of a sequence of manual (non-forced) `getNewTokenAndTicket`
calls issued back-to-back within one counter window (no reset in between),
threading the per-process counter through the calls. -/
def manualRefreshOutcomes (prior : Option GlobalTokenItem) :
    List TokenEnv → Nat → List (RefreshOutcome × List UpstreamCall)
  | [], _ => []
  | e :: es, counter =>
    let r := getNewTokenAndTicket false counter prior e
    (r.2.1, r.2.2) :: manualRefreshOutcomes prior es r.1

/-- Shorthand for the successful outcome of one forced or under-budget
refresh against environment `e`: the merged persisted record plus the
token fetch followed by the ticket fetch. -/
def fetchedOutcome (prior : Option GlobalTokenItem) (e : TokenEnv) :
    RefreshOutcome × List UpstreamCall :=
  (.resolved (applyGlobalTokenSetter prior
     (updateAccessTokenOrTicketGlobally e.newAccessToken e.newTicket e.now)),
   [.fetchAccessToken, .fetchTicket])

/-! ## Signature cache (lib/JSSDK.ts `filterSignature` / `getSignature`)

`utils.isExpired`, used by the TypeScript `JSSDK.isTokenExpired`, is not
among the sources; the legacy module's `isTokenExpired` in the sources spells
out the identical check, so `isTokenExpired` above is reused. -/

/-- Embedding of `JSSDK.filterSignature`: an absent record filters to the empty object;
otherwise exactly the five client-facing fields are produced
(`appId` from the options, the rest copied). -/
def filterSignature (appId : String) :
    Option UrlSigItem → UrlSigItem
  | none => {}
  | some s =>
    { appId := some appId,
      timestamp := s.timestamp,
      nonceStr := s.nonceStr,
      signature := s.signature,
      url := s.url }

/-- Result of `JSSDK.getSignature`: either a filtered cached record is
served, or control passes to `createSignature` on the normalized url. -/
inductive GetSignatureResult where
  | fromCache (sig : UrlSigItem)
  | create (url : String)
  deriving Repr, DecidableEq

/-- Embedding of `JSSDK.getSignature(url, forceNewSignature)` (lib/JSSDK.ts): normalize
the url, look it up; when not forcing, a record exists and its `modifyDate`
(defaulted to epoch 0 when absent) is not expired, serve the filtered view,
else call `createSignature` with the normalized url. -/
def getSignature (store : String → Option UrlSigItem) (now : Int)
    (appId : String) (url : String) (forceNewSignature : Bool) :
    GetSignatureResult :=
  let nurl := normalizeUrl url
  match store nurl with
  | some s =>
    if !forceNewSignature && !isTokenExpired now (s.modifyDate.getD 0) then
      .fromCache (filterSignature appId (some s))
    else
      .create nurl
  | none => .create nurl

/-! ## Inbound webhook check (`JSSDK.verifySignature`) -/

/-- Embedding of `JSSDK.verifySignature(query)`: sort the three strings
`[wechatToken, query.timestamp, query.nonce]`, join them with no separator,
hash, and compare with `query.signature`. -/
def verifySignature (sha1 : String → String) (wechatToken : String)
    (timestamp nonce signature : String) : Bool :=
  let keys := [wechatToken, timestamp, nonce]
  let str := String.join (insertionSort strLe keys)
  sha1 str == signature

/-! ## Saving and updating url signatures

`Store.updateSignature(url, partial)` and `Store.saveSignature` are not
among the sources; per the spec's store contract an update "merges and
persists" the partial fields into the existing record, so the merge is
modelled field-by-field (payload field present wins, absent keeps). -/

/-- Modelled from the spec: `Store.updateSignature(url, partial)` merges the
partial payload into the existing record (present payload fields override,
deleted/absent fields are preserved). -/
def mergeSig (existing payload : UrlSigItem) : UrlSigItem :=
  { appId := payload.appId.orElse (fun _ => existing.appId),
    timestamp := payload.timestamp.orElse (fun _ => existing.timestamp),
    nonceStr := payload.nonceStr.orElse (fun _ => existing.nonceStr),
    signature := payload.signature.orElse (fun _ => existing.signature),
    url := payload.url.orElse (fun _ => existing.url),
    jsapi_ticket := payload.jsapi_ticket.orElse (fun _ => existing.jsapi_ticket),
    accessToken := payload.accessToken.orElse (fun _ => existing.accessToken),
    signatureName := payload.signatureName.orElse (fun _ => existing.signatureName),
    createDate := payload.createDate.orElse (fun _ => existing.createDate),
    modifyDate := payload.modifyDate.orElse (fun _ => existing.modifyDate) }

/-- Embedding of `JSSDK.updateSignature(url, info)` (lib/JSSDK.ts): stamp a fresh
`modifyDate`, delete `createDate` and `signatureName` from the payload
(`url` is NOT deleted), and merge into the record stored under the
normalized url. -/
def updateSignatureTS (now : Int) (info existing : UrlSigItem) : UrlSigItem :=
  mergeSig existing
    { info with modifyDate := some now, createDate := none, signatureName := none }

/-- Legacy `JSSDK.updateSignatureByUrl(url, info)`: stamp a fresh
`modifyDate`, delete `url` and `signatureName` from the payload
(`createDate` is NOT deleted), and merge into the stored record. -/
def updateSignatureByUrlJS (now : Int) (info existing : UrlSigItem) : UrlSigItem :=
  mergeSig existing
    { info with modifyDate := some now, url := none, signatureName := none }

/-- Result of the save pipeline: update of the record under the normalized
url key, insert under `signatureName`, or the TypeScript rejection when a
new record has no `signatureName`. -/
inductive SaveSignatureResult where
  | updated (key : String) (record : UrlSigItem)
  | inserted (name : String) (record : UrlSigItem)
  | errorNoName
  deriving Repr, DecidableEq

/-- Embedding of `JSSDK.saveSignature(info)` (lib/JSSDK.ts): copy the payload, stamp
`createDate = modifyDate = now`; when a record already exists under
`signature.url`, update it via `updateSignature`, otherwise reject when
`signatureName` is falsy, else insert under `signatureName`. -/
def saveSignatureTS (now : Int) (store : String → Option UrlSigItem)
    (info : UrlSigItem) : SaveSignatureResult :=
  let signature := { info with createDate := some now, modifyDate := some now }
  let key := signature.url.getD ""
  match store key with
  | some _ =>
    let nurl := normalizeUrl key
    match store nurl with
    | some existing => .updated nurl (updateSignatureTS now signature existing)
    | none => .updated nurl (mergeSig {} { signature with
        modifyDate := some now, createDate := none, signatureName := none })
  | none =>
    if !truthyOptStr signature.signatureName then .errorNoName
    else .inserted (signature.signatureName.getD "") signature

/-- Legacy `JSSDK.saveNewSignature(info)`: copy the payload, stamp
`createDate = modifyDate = now`; when a record already exists under
`signature.url`, update it via `updateSignatureByUrl` (no `signatureName`
guard in the legacy code), else insert under `signatureName`. -/
def saveNewSignatureJS (now : Int) (store : String → Option UrlSigItem)
    (info : UrlSigItem) : SaveSignatureResult :=
  let signature := { info with createDate := some now, modifyDate := some now }
  let key := signature.url.getD ""
  match store key with
  | some _ =>
    let nurl := normalizeUrl key
    match store nurl with
    | some existing => .updated nurl (updateSignatureByUrlJS now signature existing)
    | none => .updated nurl (mergeSig {} { signature with
        modifyDate := some now, url := none, signatureName := none })
  | none => .inserted (signature.signatureName.getD "") signature

/-! ## OAuth (lib/OAuth.ts) -/

/-- A `StoreOAuthItem` with the fields this core reads and writes
(absent field = `none`). -/
structure OAuthItem where
  key : Option String := none
  access_token : Option String := none
  refresh_token : Option String := none
  openid : Option String := none
  expires_in : Option Int := none
  expirationTime : Option Int := none
  createDate : Option Int := none
  modifyDate : Option Int := none
  deriving Repr, DecidableEq

/-- Embedding of `OAuth.setAccessTokenExpirationTime`: when `expires_in` is falsy
(absent or 0) the record is returned unchanged; otherwise
`expirationTime = Date.now() + (expires_in - 60) * 1000`. -/
def setAccessTokenExpirationTime (now : Int) (tokenInfo : OAuthItem) :
    OAuthItem :=
  if !truthyInt tokenInfo.expires_in then tokenInfo
  else { tokenInfo with
         expirationTime := some (now + (tokenInfo.expires_in.getD 0 - 60) * 1000) }

/-- Embedding of `OAuth.isAccessTokenExpired`: a falsy `expirationTime` (absent or 0)
means expired; otherwise expired iff `Date.now() - expirationTime >= 0`. -/
def isAccessTokenExpired (now : Int) (tokenInfo : OAuthItem) : Bool :=
  if !truthyInt tokenInfo.expirationTime then true
  else now - tokenInfo.expirationTime.getD 0 ≥ 0

/-- The action `OAuth.getAccessToken(code, key)` resolves to: a remote
authorization-code exchange persisting under `persistedKey`, the
"please get new code!" rejection, a `refreshAccessToken(key, tokenInfo)`
call, or the cached record returned unchanged. -/
inductive OAuthAction where
  | remoteExchange (persistedKey : String) (persisted : OAuthItem)
  | rejectedNoCode (message : String)
  | refresh (key : String) (tokenInfo : OAuthItem)
  | cachedHit (tokenInfo : OAuthItem)
  deriving Repr, DecidableEq

/-- Embedding of `OAuth.getAccessTokenRemotely(code, key)`: exchange the code upstream
(the response is the `response` parameter), set the expiration time, choose
`key || data.openid` as the storage key, stamp `key`/`createDate`/
`modifyDate`, and persist. -/
def getAccessTokenRemotely (response : OAuthItem) (key : String) (now : Int) :
    OAuthAction :=
  let data := setAccessTokenExpirationTime now response
  let oauthKey := if truthyStr key then key else data.openid.getD ""
  .remoteExchange oauthKey
    { data with key := some oauthKey, createDate := some now, modifyDate := some now }

/-- Embedding of `OAuth.getAccessToken(code, key)`: with a truthy code always exchange
remotely regardless of the cache; otherwise read the cache by `key`, reject
when absent, refresh when expired, else return the cached record. -/
def getAccessToken (store : String → Option OAuthItem) (code key : String)
    (response : OAuthItem) (now : Int) : OAuthAction :=
  if truthyStr code then getAccessTokenRemotely response key now
  else
    match store key with
    | none => .rejectedNoCode "please get new code!"
    | some tokenInfo =>
      if isAccessTokenExpired now tokenInfo then .refresh key tokenInfo
      else .cachedHit tokenInfo

/-! ## Helper lemmas about the JavaScript sort order -/

theorem charListLe_total : ∀ as bs, charListLe as bs = true ∨ charListLe bs as = true
  | [], _ => Or.inl rfl
  | _ :: _, [] => Or.inr rfl
  | a :: as, b :: bs => by
    by_cases hab : charLt a b = true
    · exact Or.inl (by simp [charListLe, hab])
    · by_cases hba : charLt b a = true
      · exact Or.inr (by simp [charListLe, hba])
      · rcases charListLe_total as bs with h | h
        · exact Or.inl (by simp [charListLe, hab, hba, h])
        · exact Or.inr (by simp [charListLe, hab, hba, h])

theorem charListLe_trans : ∀ as bs cs, charListLe as bs = true →
    charListLe bs cs = true → charListLe as cs = true
  | [], _, _, _, _ => rfl
  | _ :: _, [], _, h1, _ => by simp [charListLe] at h1
  | _ :: _, _ :: _, [], _, h2 => by simp [charListLe] at h2
  | a :: as, b :: bs, c :: cs, h1, h2 => by
    simp only [charListLe, charLt, decide_eq_true_eq] at h1 h2 ⊢
    split_ifs at h1 h2 ⊢
    all_goals try rfl
    all_goals try exact charListLe_trans as bs cs h1 h2
    all_goals exfalso
    all_goals omega

theorem strLe_total (a b : String) : strLe a b = true ∨ strLe b a = true :=
  charListLe_total a.data b.data

theorem strLe_trans {a b c : String} (h1 : strLe a b = true)
    (h2 : strLe b c = true) : strLe a c = true :=
  charListLe_trans a.data b.data c.data h1 h2

theorem insertSorted_perm (le : α → α → Bool) (a : α) :
    ∀ l : List α, (insertSorted le a l).Perm (a :: l)
  | [] => List.Perm.refl _
  | b :: bs => by
    unfold insertSorted
    by_cases h : le a b = true
    · simp [h]
    · simp only [h, if_false, Bool.false_eq_true]
      exact ((insertSorted_perm le a bs).cons b).trans (List.Perm.swap a b bs)

theorem insertionSort_perm (le : α → α → Bool) :
    ∀ l : List α, (insertionSort le l).Perm l
  | [] => List.Perm.refl _
  | a :: as =>
    (insertSorted_perm le a (insertionSort le as)).trans
      ((insertionSort_perm le as).cons a)

/-- Sortedness of a list of strings in the JavaScript string order. -/
def StrSorted (l : List String) : Prop :=
  l.Pairwise (fun x y => strLe x y = true)

theorem insertSorted_sorted (a : String) :
    ∀ l : List String, StrSorted l → StrSorted (insertSorted strLe a l)
  | [], _ => List.pairwise_singleton _ _
  | b :: bs, h => by
    rcases List.pairwise_cons.1 h with ⟨hb, hbs⟩
    by_cases hab : strLe a b = true
    · unfold insertSorted
      simp only [hab, if_true]
      refine List.pairwise_cons.2 ⟨?_, h⟩
      intro z hz
      rcases List.mem_cons.1 hz with rfl | hz
      · exact hab
      · exact strLe_trans hab (hb z hz)
    · unfold insertSorted
      simp only [hab, if_false, Bool.false_eq_true]
      refine List.pairwise_cons.2 ⟨?_, insertSorted_sorted a bs hbs⟩
      intro z hz
      have hz2 : z ∈ a :: bs := (insertSorted_perm strLe a bs).mem_iff.1 hz
      rcases List.mem_cons.1 hz2 with rfl | hz2
      · rcases strLe_total z b with h' | h'
        · exact absurd h' hab
        · exact h'
      · exact hb z hz2

theorem insertionSort_sorted : ∀ l : List String, StrSorted (insertionSort strLe l)
  | [] => List.Pairwise.nil
  | a :: as => insertSorted_sorted a _ (insertionSort_sorted as)

/-! ## Helper lemmas about `normalizeUrl` -/

theorem findHashAux_of_not_mem : ∀ (l : List Char) (i : Nat), '#' ∉ l →
    findHashAux l i = none
  | [], _, _ => rfl
  | c :: cs, i, h => by
    have hc : (c == '#') = false := by
      simp only [beq_eq_false_iff_ne, ne_eq]
      exact fun e => h (e ▸ List.mem_cons_self c cs)
    simp only [findHashAux, hc, Bool.false_eq_true, if_false]
    exact findHashAux_of_not_mem cs (i + 1) (fun hm => h (List.mem_cons_of_mem c hm))

theorem findHashAux_append (fs : List Char) : ∀ (bs : List Char) (i : Nat), '#' ∉ bs →
    findHashAux (bs ++ '#' :: fs) i = some (i + bs.length)
  | [], i, _ => by simp [findHashAux]
  | b :: bs, i, h => by
    have hb : (b == '#') = false := by
      simp only [beq_eq_false_iff_ne, ne_eq]
      exact fun e => h (e ▸ List.mem_cons_self b bs)
    simp only [List.cons_append, findHashAux, hb, Bool.false_eq_true, if_false,
      List.append_eq]
    rw [findHashAux_append fs bs (i + 1) (fun hm => h (List.mem_cons_of_mem b hm))]
    congr 1
    simp [List.length_cons]
    omega

theorem prefixOfB_refl : ∀ l : List Char, prefixOfB l l = true
  | [] => rfl
  | a :: as => by simp [prefixOfB, prefixOfB_refl as]

theorem idxOfSubAux_junction (fs : List Char) : ∀ (bs : List Char) (i : Nat), '#' ∉ bs →
    idxOfSubAux ('#' :: fs) (bs ++ '#' :: fs) i = some (i + bs.length)
  | [], i, _ => by
    simp only [List.nil_append, idxOfSubAux, prefixOfB_refl, if_true, List.length_nil,
      Nat.add_zero]
  | b :: bs, i, h => by
    have hb : (('#' : Char) == b) = false := by
      simp only [beq_eq_false_iff_ne, ne_eq]
      exact fun e => h (e ▸ List.mem_cons_self b bs)
    simp only [List.cons_append, idxOfSubAux, prefixOfB, hb, Bool.false_and,
      Bool.false_eq_true, if_false, List.append_eq]
    rw [idxOfSubAux_junction fs bs (i + 1) (fun hm => h (List.mem_cons_of_mem b hm))]
    congr 1
    simp [List.length_cons]
    omega

theorem idxOfSubAux_nil_pat : ∀ (u : List Char) (i : Nat), idxOfSubAux [] u i = some i
  | [], _ => rfl
  | _ :: _, _ => rfl

theorem normalizeUrl_of_no_hash (u : String) (h : '#' ∉ u.data) : normalizeUrl u = u := by
  apply String.ext
  show normalizeUrlL u.data = u.data
  unfold normalizeUrlL
  rw [findHashAux_of_not_mem u.data 0 h]
  simp [idxOfSubAux_nil_pat]

theorem normalizeUrl_strip (base f : String) (h0 : base ≠ "") (hb : '#' ∉ base.data) :
    normalizeUrl (base ++ "#" ++ f) = base := by
  apply String.ext
  have hdata : (base ++ "#" ++ f).data = base.data ++ '#' :: f.data := by
    rw [String.data_append, String.data_append, List.append_assoc]
    rfl
  show normalizeUrlL (base ++ "#" ++ f).data = base.data
  rw [hdata]
  unfold normalizeUrlL
  rw [findHashAux_append f.data base.data 0 hb]
  simp only [Nat.zero_add]
  rw [List.drop_left, idxOfSubAux_junction f.data base.data 0 hb]
  simp only [Nat.zero_add]
  have hlen : 0 < base.data.length := by
    cases hbase : base.data with
    | nil => exact absurd (String.ext hbase) h0
    | cons x xs => simp
  have hpos : ((base.data.length : Int) > 0) := by exact_mod_cast hlen
  simp only [hpos, if_true]
  rw [Int.toNat_ofNat]
  exact List.take_left base.data _

/-! ## Claim theorems -/

/-- C1: the legacy `genSignature` reproduces the spec's canonical four-tuple
string at the fixture inputs, but the TypeScript `generateSignature`
serializes its `signature`/`accessToken` placeholders into the string it
hashes, so the string it feeds to SHA-1 at the fixture is NOT the claimed
four-tuple serialization; its `signature` field is the digest of that
six-field string. -/
theorem C1_generateSignature_placeholder_bug :
    genSignatureStr "t123" "n456" "1400000000" "http://example.com/page"
      = "jsapi_ticket=t123&noncestr=n456&timestamp=1400000000&url=http://example.com/page"
  ∧ generateSignatureStr "t123" "n456" "1400000000" "http://example.com/page"
      = "accesstoken=&jsapi_ticket=t123&noncestr=n456&signature=&timestamp=1400000000&url=http://example.com/page"
  ∧ generateSignatureStr "t123" "n456" "1400000000" "http://example.com/page"
      ≠ "jsapi_ticket=t123&noncestr=n456&timestamp=1400000000&url=http://example.com/page"
  ∧ (∀ sha1 : String → String,
      (generateSignature sha1 "http://example.com/page" "tokenValue" "t123" "n456"
          "1400000000").signature
        = some (sha1 (generateSignatureStr "t123" "n456" "1400000000"
            "http://example.com/page"))
      ∧ (genSignature sha1 "t123" "http://example.com/page" "tokenValue" "n456"
          "1400000000").signature
        = some (sha1 (genSignatureStr "t123" "n456" "1400000000"
            "http://example.com/page"))) :=
  ⟨by decide, by decide, by decide, fun sha1 => ⟨rfl, rfl⟩⟩

/-- C2 counterexample: at `now - modifyDate` equal to exactly 119*60*1000 ms
the cached record is served with no upstream call, although the claim's
strict validity bound `now - modifyDate < 1h59m` fails there. -/
theorem C2_ttl_boundary_counterexample :
    prepareNewSignature (some (GlobalTokenItem.mk "cachedTok" "cachedTicket" 0)) 0
        (TokenEnv.mk "freshTok" "freshTicket" 7140000)
      = (0, .resolved (GlobalTokenItem.mk "cachedTok" "cachedTicket" 0), [])
    ∧ ¬((7140000 : Int) - 0 < REFRESH_INTERVAL) := by
  constructor
  · decide
  · decide

/-- C2 amended: a stored global token record is treated as valid iff its
`accessToken` is truthy and `now - modifyDate ≤ 119*60*1000` ms (non-strict);
a valid record is returned with no upstream call, and in every other case
(absent record, falsy `accessToken`, or strictly older than 1h59m)
`prepareNewSignature` performs exactly one access-token fetch followed by
one ticket fetch and persists the merged result. -/
theorem C2_prepareGlobalToken_amended (cached : GlobalTokenItem) (counter : Nat)
    (env : TokenEnv) :
    (truthyStr cached.accessToken = true → env.now - cached.modifyDate ≤ REFRESH_INTERVAL →
       prepareNewSignature (some cached) counter env = (counter, .resolved cached, []))
  ∧ (truthyStr cached.accessToken = false ∨ env.now - cached.modifyDate > REFRESH_INTERVAL →
       prepareNewSignature (some cached) counter env
         = (counter, fetchedOutcome (some cached) env))
  ∧ prepareNewSignature none counter env = (counter, fetchedOutcome none env)
  ∧ (fetchedOutcome (some cached) env).2
      = [UpstreamCall.fetchAccessToken, UpstreamCall.fetchTicket] := by
  refine ⟨?_, ?_, ?_, rfl⟩
  · intro h1 h2
    have hexp : isTokenExpired env.now cached.modifyDate = false := by
      unfold isTokenExpired
      simp only [decide_eq_false_iff_not]
      omega
    simp [prepareNewSignature, h1, hexp]
  · intro h
    rcases h with h | h
    · simp [prepareNewSignature, getNewTokenAndTicket, fetchedOutcome, h]
    · have hexp : isTokenExpired env.now cached.modifyDate = true := by
        unfold isTokenExpired
        simp only [decide_eq_true_eq]
        omega
      simp [prepareNewSignature, getNewTokenAndTicket, fetchedOutcome, hexp]
  · simp [prepareNewSignature, getNewTokenAndTicket, fetchedOutcome]

/-- C2 witness: a concrete valid cached record is served unchanged with no
upstream call. -/
theorem C2_prepareGlobalToken_amended_witness :
    prepareNewSignature (some (GlobalTokenItem.mk "a" "j" 0)) 2 (TokenEnv.mk "n" "t" 100)
      = (2, .resolved (GlobalTokenItem.mk "a" "j" 0), []) :=
  (C2_prepareGlobalToken_amended (GlobalTokenItem.mk "a" "j" 0) 2
    (TokenEnv.mk "n" "t" 100)).1 (by decide) (by decide)

/-- C3: in a sequence of six manual refreshes within one counter window
starting from a fresh counter, the first five each perform exactly the
access-token fetch followed by the ticket fetch, while the sixth fails with
the rate-limit rejection and performs no upstream call; the fixed two-hour
timer resets the counter to zero. -/
theorem C3_manual_refresh_rate_limit (prior : Option GlobalTokenItem)
    (e1 e2 e3 e4 e5 e6 : TokenEnv) :
    manualRefreshOutcomes prior [e1, e2, e3, e4, e5, e6] 0
      = [fetchedOutcome prior e1, fetchedOutcome prior e2, fetchedOutcome prior e3,
         fetchedOutcome prior e4, fetchedOutcome prior e5,
         (.rateLimited "maximum manual refresh threshold reached!", [])]
  ∧ (∀ counter : Nat, resetRefreshedTimes counter = 0)
  ∧ counterResetIntervalMs = 1000 * 7200 :=
  ⟨rfl, fun _ => rfl, rfl⟩

/-- C4: when a cached record for the normalized url exists, is unexpired,
and no new signature is forced, `getSignature` serves a filtered view
carrying exactly `appId`, `timestamp`, `nonceStr`, `signature` and `url`
(the internal `jsapi_ticket` and `accessToken` fields are absent); with an
expired record, a forced refresh, or no cached record, it calls
`createSignature` on the normalized url. -/
theorem C4_getSignature_cache (store : String → Option UrlSigItem) (now : Int)
    (appId url : String) (s : UrlSigItem)
    (hs : store (normalizeUrl url) = some s) :
    (isTokenExpired now (s.modifyDate.getD 0) = false →
       getSignature store now appId url false
         = .fromCache
             { appId := some appId, timestamp := s.timestamp,
               nonceStr := s.nonceStr, signature := s.signature, url := s.url,
               jsapi_ticket := none, accessToken := none, signatureName := none,
               createDate := none, modifyDate := none })
  ∧ (isTokenExpired now (s.modifyDate.getD 0) = true →
       ∀ force : Bool, getSignature store now appId url force = .create (normalizeUrl url))
  ∧ getSignature store now appId url true = .create (normalizeUrl url)
  ∧ (∀ store2 : String → Option UrlSigItem, store2 (normalizeUrl url) = none →
       ∀ force : Bool, getSignature store2 now appId url force
         = .create (normalizeUrl url)) := by
  refine ⟨?_, ?_, ?_, ?_⟩
  · intro hexp
    simp [getSignature, hs, hexp, filterSignature]
  · intro hexp force
    simp [getSignature, hs, hexp]
  · simp [getSignature, hs]
  · intro store2 h2 force
    simp [getSignature, h2]

/-- C4 witness: a concrete unexpired cached record is served filtered, with
the internal ticket and token fields absent. -/
theorem C4_getSignature_cache_witness :
    getSignature
        (fun u => if u = "http://w/p" then
            some { timestamp := some "1400", nonceStr := some "n1",
                   signature := some "sig1", url := some "http://w/p",
                   jsapi_ticket := some "TICKET", accessToken := some "TOKEN",
                   modifyDate := some 50 }
          else none)
        60 "appid1" "http://w/p" false
      = .fromCache
          { appId := some "appid1", timestamp := some "1400",
            nonceStr := some "n1", signature := some "sig1",
            url := some "http://w/p" } :=
  (C4_getSignature_cache _ 60 "appid1" "http://w/p"
    { timestamp := some "1400", nonceStr := some "n1", signature := some "sig1",
      url := some "http://w/p", jsapi_ticket := some "TICKET",
      accessToken := some "TOKEN", modifyDate := some 50 }
    (by decide)).1 (by decide)

/-- C5: `verifySignature` returns true iff the digest of the concatenation
of the sorted rearrangement of `{wechatToken, timestamp, nonce}` equals the
supplied signature; the concatenated list is a sorted permutation of those
three values, and any supplied signature differing from that digest is
rejected. -/
theorem C5_verifySignature_iff (sha1 : String → String)
    (wechatToken timestamp nonce signature : String) :
    (verifySignature sha1 wechatToken timestamp nonce signature = true ↔
       sha1 (String.join (insertionSort strLe [wechatToken, timestamp, nonce]))
         = signature)
  ∧ (insertionSort strLe [wechatToken, timestamp, nonce]).Perm
      [wechatToken, timestamp, nonce]
  ∧ StrSorted (insertionSort strLe [wechatToken, timestamp, nonce])
  ∧ (∀ s2 : String,
       sha1 (String.join (insertionSort strLe [wechatToken, timestamp, nonce])) ≠ s2 →
       verifySignature sha1 wechatToken timestamp nonce s2 = false) := by
  refine ⟨?_, insertionSort_perm _ _, insertionSort_sorted _, ?_⟩
  · simp [verifySignature]
  · intro s2 hne
    simp [verifySignature, hne]

/-- C5 witness: with the identity digest the sorted concatenation of three
concrete values is accepted. -/
theorem C5_verifySignature_iff_witness :
    verifySignature (fun s => s) "b" "a" "c" "abc" = true :=
  (C5_verifySignature_iff (fun s => s) "b" "a" "c" "abc").1.2 (by decide)

/-- C6: with a truthy code `getAccessToken` always performs the remote
authorization-code exchange regardless of the cached record, stamps the
expiration time (the upstream contract guarantees a nonzero `expires_in`)
and persists under `key`, or under the response's `openid` when `key` is
absent; with no code it rejects on an empty cache, refreshes an expired
record, and otherwise returns the cached record unchanged. -/
theorem C6_getAccessToken_branches (store : String → Option OAuthItem)
    (code key : String) (response : OAuthItem) (now : Int) :
    (truthyStr code = true →
       getAccessToken store code key response now
         = getAccessTokenRemotely response key now)
  ∧ (∀ e : Int, response.expires_in = some e → e ≠ 0 →
       getAccessTokenRemotely response key now
         = .remoteExchange (if truthyStr key then key else response.openid.getD "")
             { response with
               expirationTime := some (now + (e - 60) * 1000),
               key := some (if truthyStr key then key else response.openid.getD ""),
               createDate := some now, modifyDate := some now })
  ∧ (truthyStr code = false → store key = none →
       getAccessToken store code key response now
         = .rejectedNoCode "please get new code!")
  ∧ (truthyStr code = false → ∀ t : OAuthItem, store key = some t →
       isAccessTokenExpired now t = true →
       getAccessToken store code key response now = .refresh key t)
  ∧ (truthyStr code = false → ∀ t : OAuthItem, store key = some t →
       isAccessTokenExpired now t = false →
       getAccessToken store code key response now = .cachedHit t) := by
  refine ⟨?_, ?_, ?_, ?_, ?_⟩
  · intro h
    simp [getAccessToken, h]
  · intro e he hne
    simp [getAccessTokenRemotely, setAccessTokenExpirationTime, truthyInt, he, hne]
  · intro h hstore
    simp [getAccessToken, h, hstore]
  · intro h t hstore hexp
    simp [getAccessToken, h, hstore, hexp]
  · intro h t hstore hexp
    simp [getAccessToken, h, hstore, hexp]

/-- C6 witness: with no code and a concrete cached record lacking an
expiration time, the refresh path is taken for that record. -/
theorem C6_getAccessToken_branches_witness :
    getAccessToken
        (fun k => if k = "u1" then
            some { access_token := some "at", refresh_token := some "rt" }
          else none)
        "" "u1" {} 5
      = .refresh "u1" { access_token := some "at", refresh_token := some "rt" } :=
  (C6_getAccessToken_branches _ "" "u1" {} 5).2.2.2.1 (by decide)
    { access_token := some "at", refresh_token := some "rt" } (by decide) (by decide)

/-- C7 counterexample: a record whose `expires_in` value is 0 is left
without `expirationTime` (JavaScript falsiness), contradicting the claimed
formula for every record with an `expires_in` value. -/
theorem C7_zero_expires_in_counterexample :
    ({ expires_in := some 0 } : OAuthItem).expires_in = some 0
  ∧ (setAccessTokenExpirationTime 1000 { expires_in := some 0 }).expirationTime
      ≠ some (1000 + ((0 : Int) - 60) * 1000) := by
  constructor
  · rfl
  · decide

/-- C7 amended: for every record with a nonzero `expires_in`,
`expirationTime` is set to `issueTime + (expires_in - 60) * 1000` ms, and a
record with a nonzero `expirationTime` is treated as valid by
`isAccessTokenExpired` exactly while `now < expirationTime`. -/
theorem C7_expiration_amended (t : OAuthItem) (now e : Int)
    (he : t.expires_in = some e) (hne : e ≠ 0) :
    (setAccessTokenExpirationTime now t).expirationTime
      = some (now + (e - 60) * 1000)
  ∧ (∀ (u : OAuthItem) (n et : Int), u.expirationTime = some et → et ≠ 0 →
       (isAccessTokenExpired n u = true ↔ n ≥ et)) := by
  constructor
  · simp [setAccessTokenExpirationTime, truthyInt, he, hne]
  · intro u n et hu het
    simp [isAccessTokenExpired, truthyInt, hu, het]

/-- C7 witness: a standard 7200-second token issued at time 500 expires at
`500 + 7140 * 1000`. -/
theorem C7_expiration_amended_witness :
    (setAccessTokenExpirationTime 500 { expires_in := some 7200 }).expirationTime
      = some (500 + ((7200 : Int) - 60) * 1000) :=
  (C7_expiration_amended { expires_in := some 7200 } 500 7200 rfl (by decide)).1

/-- C8 counterexample: two fragment-only URLs differ only in their hash
fragment, yet `normalizeUrl` (whose truncation requires a strictly positive
hash index) returns each unchanged, so they do not collapse to one key. -/
theorem C8_fragment_only_counterexample :
    normalizeUrl "#a" = "#a" ∧ normalizeUrl "#b" = "#b"
  ∧ normalizeUrl "#a" ≠ normalizeUrl "#b" :=
  ⟨by decide, by decide, by decide⟩

/-- C8 amended: for URLs whose nonempty pre-fragment part carries no `#`,
all fragments collapse to the same stripped URL (the pre-fragment part),
and a URL without any `#` is returned unchanged. -/
theorem C8_normalizeUrl_amended (base f1 f2 : String)
    (h0 : base ≠ "") (hb : '#' ∉ base.data) :
    normalizeUrl (base ++ "#" ++ f1) = base
  ∧ normalizeUrl (base ++ "#" ++ f1) = normalizeUrl (base ++ "#" ++ f2)
  ∧ normalizeUrl base = base
  ∧ (∀ u : String, '#' ∉ u.data → normalizeUrl u = u) := by
  refine ⟨normalizeUrl_strip base f1 h0 hb, ?_, normalizeUrl_of_no_hash base hb,
    fun u hu => normalizeUrl_of_no_hash u hu⟩
  rw [normalizeUrl_strip base f1 h0 hb, normalizeUrl_strip base f2 h0 hb]

/-- C8 witness: two concrete URLs differing only by fragment collapse to the
same stripped URL. -/
theorem C8_normalizeUrl_amended_witness :
    normalizeUrl ("http://example.com/page" ++ "#" ++ "frag1")
      = "http://example.com/page" :=
  (C8_normalizeUrl_amended "http://example.com/page" "frag1" "frag2"
    (by decide) (by decide)).1

/-- C9 counterexample: in the legacy pipeline, updating the existing record
for a url overwrites its original `createDate` (5) with the fresh save date
(99), because `updateSignatureByUrl` deletes only `url` and `signatureName`
from the payload. -/
theorem C9_createDate_overwritten_counterexample :
    saveNewSignatureJS 99
        (fun u => if u = "http://x/p" then
            some { url := some "http://x/p", signatureName := some "http://x/p",
                   signature := some "oldSig", createDate := some 5,
                   modifyDate := some 5 }
          else none)
        { url := some "http://x/p", signatureName := some "http://x/p",
          signature := some "newSig" }
      = .updated "http://x/p"
          { url := some "http://x/p", signatureName := some "http://x/p",
            signature := some "newSig", createDate := some 99,
            modifyDate := some 99 }
  ∧ (some (99 : Int)) ≠ some (5 : Int) :=
  ⟨by decide, by decide⟩

/-- C9 amended: when a record for the url already exists, `saveSignature`
updates it in place via `updateSignature`; neither pipeline can rename `url`
or `signatureName`; the TypeScript update also preserves `createDate`, while
the legacy update overwrites `createDate` with the save date; when no record
exists, a new one is inserted under `signatureName`. -/
theorem C9_saveSignature_amended (now : Int) (store : String → Option UrlSigItem)
    (info existing : UrlSigItem) (u : String)
    (hu : info.url = some u) (hnorm : normalizeUrl u = u)
    (hstore : store u = some existing) :
    (∃ r : UrlSigItem, saveSignatureTS now store info = .updated u r
       ∧ r.createDate = existing.createDate
       ∧ r.signatureName = existing.signatureName
       ∧ r.url = some u)
  ∧ (∃ r : UrlSigItem, saveNewSignatureJS now store info = .updated u r
       ∧ r.url = existing.url
       ∧ r.signatureName = existing.signatureName
       ∧ r.createDate = some now)
  ∧ (∀ (info2 : UrlSigItem) (name : String),
       store (info2.url.getD "") = none → info2.signatureName = some name →
       truthyStr name = true →
       saveSignatureTS now store info2
         = .inserted name
             { info2 with createDate := some now, modifyDate := some now }) := by
  refine ⟨?_, ?_, ?_⟩
  · refine ⟨updateSignatureTS now
      { info with createDate := some now, modifyDate := some now } existing,
      ?_, ?_, ?_, ?_⟩
    · simp [saveSignatureTS, hu, hnorm, hstore]
    · simp [updateSignatureTS, mergeSig]
    · simp [updateSignatureTS, mergeSig]
    · simp [updateSignatureTS, mergeSig, hu]
  · refine ⟨updateSignatureByUrlJS now
      { info with createDate := some now, modifyDate := some now } existing,
      ?_, ?_, ?_, ?_⟩
    · simp [saveNewSignatureJS, hu, hnorm, hstore]
    · simp [updateSignatureByUrlJS, mergeSig]
    · simp [updateSignatureByUrlJS, mergeSig]
    · simp [updateSignatureByUrlJS, mergeSig]
  · intro info2 name h2 hname htruthy
    simp [saveSignatureTS, truthyOptStr, h2, hname, htruthy]

/-- C9 witness: a concrete existing record is updated in place by the
TypeScript pipeline, keeping its original `createDate`. -/
theorem C9_saveSignature_amended_witness :
    (∃ r : UrlSigItem,
       saveSignatureTS 77
           (fun u => if u = "http://y/q" then
               some { url := some "http://y/q", signatureName := some "http://y/q",
                      signature := some "old", createDate := some 3,
                      modifyDate := some 3 }
             else none)
           { url := some "http://y/q", signatureName := some "http://y/q",
             signature := some "new" }
         = .updated "http://y/q" r
       ∧ r.createDate = some 3) := by
  obtain ⟨r, h1, h2, h3, h4⟩ :=
    (C9_saveSignature_amended 77
      (fun u => if u = "http://y/q" then
          some { url := some "http://y/q", signatureName := some "http://y/q",
                 signature := some "old", createDate := some 3,
                 modifyDate := some 3 }
        else none)
      { url := some "http://y/q", signatureName := some "http://y/q",
        signature := some "new" }
      { url := some "http://y/q", signatureName := some "http://y/q",
        signature := some "old", createDate := some 3, modifyDate := some 3 }
      "http://y/q" rfl (by decide) (by decide)).1
  exact ⟨r, h1, h2⟩

/-- C10: a cached OAuth record with a falsy `expirationTime` (absent or
unset) is always classified expired, so `getAccessToken` without a code
never returns it as-is and takes the refresh path; a response lacking
`expires_in` is indeed left without `expirationTime`. -/
theorem C10_missing_expirationTime (store : String → Option OAuthItem)
    (key : String) (cached response : OAuthItem) (now : Int)
    (hexp : truthyInt cached.expirationTime = false)
    (hstore : store key = some cached) :
    isAccessTokenExpired now cached = true
  ∧ getAccessToken store "" key response now = .refresh key cached
  ∧ (∀ (t : OAuthItem) (n : Int), t.expires_in = none →
       setAccessTokenExpirationTime n t = t) := by
  refine ⟨?_, ?_, ?_⟩
  · simp [isAccessTokenExpired, hexp]
  · simp [getAccessToken, truthyStr, hstore, isAccessTokenExpired, hexp]
  · intro t n ht
    simp [setAccessTokenExpirationTime, truthyInt, ht]

/-- C10 witness: a concrete cached record without `expirationTime` is
refreshed rather than returned. -/
theorem C10_missing_expirationTime_witness :
    getAccessToken
        (fun k => if k = "sess" then some { access_token := some "x" } else none)
        "" "sess" {} 3
      = .refresh "sess" { access_token := some "x" } :=
  (C10_missing_expirationTime _ "sess" { access_token := some "x" } {} 3
    (by decide) (by decide)).2.1

end WechatJSSDK
